import Mathlib

/-!
Verification of the janken (rock-paper-scissors) session service.

Shallow embedding of `src/app.py`: the `Hand` enumeration and its parser,
the `Choice`, `Result` and `Session` aggregates with their operations
(`choose`, `result`, `judge`), the redis-backed `SessionStore`
(`create`, `store`, `restore`, locking) modelled as an explicit state of
records-with-expiry plus a set of held lock keys, and the two route
handlers `start` and `choice_hand` that the claims mention.

Python dicts are insertion ordered with unique keys; `Session.choices`
is embedded as an association list `List (String × Choice)` in which a
key test (`user in choices`) is membership in `choices.map Prod.fst` and
assignment of a fresh key appends at the end.  Machine-generated UUIDs
and the ambient clock are passed in as explicit parameters (`freshId`,
`t`).  Exceptions become `Except AppError`.
-/

deriving instance DecidableEq for Except

/-- All exception classes of the application, plus `LockError`: the
exception `redis.lock.Lock.__enter__` raises when a non-blocking
acquisition (`blocking_timeout=0`) finds the lock already held.
`LockError` comes from the redis library, is not a subclass of the
application's `BaseError`, and has no registered Flask errorhandler;
all the others do (app.py lines 27-109). -/
inductive AppError where
  | NotInSession
  | AlreadyChosen
  | SessionAlreadyExist
  | SessionNotFound
  | CannotStartTransaction
  | TransactionExpired
  | NotInTransaction
  | SessionNotClosed
  | UndefinedEnum
  | LockError
  deriving DecidableEq, Repr

/-- `True` exactly for the errors that have a Flask `@app.errorhandler`
registered in app.py (every `BaseError` subclass).  The redis
`LockError` has none, so an uncaught one surfaces as a generic,
unclassified 500 response. -/
def AppError.hasErrorHandler : AppError → Bool
  | .LockError => false
  | _ => true

/-- `Hand` enumeration (app.py lines 112-115). -/
inductive Hand where
  | Rock
  | Scissors
  | Paper
  deriving DecidableEq, Repr

/-- Python `str.lower()`: lower-case every character. -/
def pyLower (s : String) : String :=
  ⟨s.data.map Char.toLower⟩

/-- Python `str.strip()`: drop leading and trailing whitespace. -/
def pyStrip (s : String) : String :=
  ⟨((s.data.dropWhile Char.isWhitespace).reverse.dropWhile
      Char.isWhitespace).reverse⟩

/-- The canonical form `hand.lower().strip()` that `Hand.from_str`
compares (app.py line 119). -/
def handCanon (hand : String) : String :=
  pyStrip (pyLower hand)

/-- `Hand.from_str` (app.py lines 117-126): lower-case, strip
whitespace, then compare against the three hand names; anything else
raises `UndefinedEnumError`. -/
def Hand.from_str (hand : String) : Except AppError Hand :=
  if handCanon hand = "rock" then .ok .Rock
  else if handCanon hand = "scissors" then .ok .Scissors
  else if handCanon hand = "paper" then .ok .Paper
  else .error .UndefinedEnum

/-- `ResultStatus` enumeration (app.py lines 129-133). -/
inductive ResultStatus where
  | Draw
  | RockWin
  | ScissorsWin
  | PaperWin
  deriving DecidableEq, Repr

/-- `Choice` (app.py lines 136-147): immutable (user, hand) pair. -/
structure Choice where
  user : String
  hand : Hand
  deriving DecidableEq, Repr

/-- `Result` (app.py lines 150-161).  The Python constructor defaults
`winners` to `None`; that default is `none` here. -/
structure Result where
  status : ResultStatus
  winners : Option (List String)
  deriving DecidableEq, Repr

/-- `Session` (app.py lines 164-175).  `choices` embeds the Python dict
as an insertion-ordered association list with unique keys. -/
structure Session where
  session_id : String
  users : List String
  choices : List (String × Choice)
  deriving DecidableEq, Repr

/-- `Session.__init__` (app.py lines 169-175) with the freshly minted
uuid passed in explicitly.  In Lean `users : List String` is always an
iterable non-dict, so the duck-typing guard that would coerce a
malformed argument to `[]` always takes its first branch. -/
def Session.init (freshId : String) (users : List String) : Session :=
  ⟨freshId, users, []⟩

/-- `Session.choose` (app.py lines 185-191): the three branches in
source order.  `user in self.__choices` is a dict key test; assigning a
fresh key appends to the insertion-ordered dict. -/
def Session.choose (s : Session) (user : String) (hand : Hand) :
    Except AppError Session :=
  if user ∈ s.users ∧ user ∉ s.choices.map Prod.fst then
    .ok { s with choices := s.choices ++ [(user, Choice.mk user hand)] }
  else if user ∈ s.choices.map Prod.fst then
    .error .AlreadyChosen
  else
    .error .NotInSession

/-- The Rock group of `Session.judge` (app.py lines 202-211): users of
the choices whose hand is Rock, in dict value order. -/
def Session.rocks (s : Session) : List String :=
  (s.choices.map Prod.snd).filterMap fun c =>
    if c.hand = Hand.Rock then some c.user else none

/-- The Scissors group of `Session.judge` (app.py lines 202-211). -/
def Session.scissors (s : Session) : List String :=
  (s.choices.map Prod.snd).filterMap fun c =>
    if c.hand = Hand.Scissors then some c.user else none

/-- The Paper group of `Session.judge` (app.py lines 202-211). -/
def Session.papers (s : Session) : List String :=
  (s.choices.map Prod.snd).filterMap fun c =>
    if c.hand = Hand.Paper then some c.user else none

/-- `Session.judge` (app.py lines 201-221): partition the choices into
the three hand groups, then apply the ordered rules; a Python list is
truthy iff non-empty. -/
def Session.judge (s : Session) : Result :=
  if s.rocks ≠ [] ∧ s.scissors ≠ [] ∧ s.papers ≠ [] then
    ⟨ResultStatus.Draw, none⟩
  else if s.rocks ≠ [] ∧ s.scissors ≠ [] then
    ⟨ResultStatus.RockWin, some s.rocks⟩
  else if s.scissors ≠ [] ∧ s.papers ≠ [] then
    ⟨ResultStatus.ScissorsWin, some s.scissors⟩
  else if s.papers ≠ [] ∧ s.rocks ≠ [] then
    ⟨ResultStatus.PaperWin, some s.papers⟩
  else
    ⟨ResultStatus.Draw, none⟩

/-- `Session.result` (app.py lines 193-199): compare the participant
set with the chooser set (`set(...) == set(...)` becomes `toFinset`
equality); on equality delegate to `judge`, otherwise raise
`SessionNotClosedError`. -/
def Session.result (s : Session) : Except AppError Result :=
  if s.users.toFinset = (s.choices.map Prod.fst).toFinset then
    .ok s.judge
  else
    .error .SessionNotClosed

/-- `SessionStore.__session_lifetime` (app.py line 226): 1 hour in
seconds, the TTL set on every write. -/
def session_lifetime : Nat := 60 * 60

/-- One redis value for a session key: the pickled session together
with its absolute expiration deadline. -/
structure StoredRecord where
  sess : Session
  expiry : Nat
  deriving DecidableEq, Repr

/-- The state of the shared redis service as the store uses it: the
session records keyed by session id, and the set of session ids whose
`SESSION_STORE_LOCK:{id}` lock key is currently held. -/
structure StoreState where
  records : List (String × StoredRecord)
  locks : List String
  deriving DecidableEq, Repr

/-- Raw key lookup in the record table. -/
def lookupRecord (recs : List (String × StoredRecord)) (sid : String) :
    Option StoredRecord :=
  (recs.find? fun p => p.1 == sid).map Prod.snd

/-- Overwrite (or insert) the record stored under `sid`. -/
def setRecord (recs : List (String × StoredRecord)) (sid : String)
    (r : StoredRecord) : List (String × StoredRecord) :=
  (sid, r) :: recs.filter fun p => p.1 != sid

/-- What redis `GET` observes at time `t`: a record that was never
written, or whose TTL has elapsed, is absent. -/
def liveGet (st : StoreState) (t : Nat) (sid : String) : Option Session :=
  match lookupRecord st.records sid with
  | some r => if t < r.expiry then some r.sess else none
  | none => none

/-- `SessionStore.create` (app.py lines 236-245): redis
`SET name value EX lifetime NX` — write the session under its id with
the standard TTL only if no live record exists for that id; on
collision the set is a no-op and the (unchecked) `False` reply is
discarded. -/
def SessionStore.create (st : StoreState) (t : Nat) (s : Session) :
    StoreState :=
  if (liveGet st t s.session_id).isSome then st
  else { st with
         records := setRecord st.records s.session_id
           ⟨s, t + session_lifetime⟩ }

/-- `SessionStore.store` (app.py lines 247-255): redis `SETEX` —
unconditional overwrite with a refreshed TTL.  redis replies `OK`
(truthy) to every successful `SETEX`, so the
`raise SessionAlreadyExistError` branch guarding a falsy reply is dead
and the operation always succeeds. -/
def SessionStore.store (st : StoreState) (t : Nat) (s : Session) :
    StoreState :=
  { st with
    records := setRecord st.records s.session_id
      ⟨s, t + session_lifetime⟩ }

/-- `SessionStore.restore` (app.py lines 257-263): redis `GET` followed
by unpickling; an absent (never created or expired) value raises
`SessionNotFoundError`.  The read leaves the store untouched and hands
back a fully materialized copy. -/
def SessionStore.restore (st : StoreState) (t : Nat) (sid : String) :
    Except AppError Session :=
  match liveGet st t sid with
  | some s => .ok s
  | none => .error .SessionNotFound

/-- Python `str.split(sep)` for a one-character separator, over the
character list; `"".split(sep)` is `[""]`. -/
def splitChar (sep : Char) : List Char → List (List Char)
  | [] => [[]]
  | c :: cs =>
    match splitChar sep cs with
    | [] => [[c]]
    | g :: gs => if c = sep then [] :: g :: gs else (c :: g) :: gs

/-- Python `usersParam.split(",")`. -/
def pySplit (sep : Char) (s : String) : List String :=
  (splitChar sep s.data).map fun g => ⟨g⟩

/-- The `/janken/start` handler (app.py lines 276-290), parameter
parsing step: split `users` on commas when one is present, otherwise a
one-element list. -/
def parse_users (usersParam : String) : List String :=
  if ',' ∈ usersParam.data then pySplit ',' usersParam
  else [usersParam]

/-- The `/janken/start` handler (app.py lines 276-290) with the fresh
uuid and the clock passed explicitly: fewer than 2 parsed users returns
an error message without touching the store; otherwise construct the
session, `create` it, and answer with its id. -/
def start (usersParam : String) (freshId : String) (t : Nat)
    (st : StoreState) : StoreState × Except String String :=
  let users := parse_users usersParam
  if users.length < 2 then
    (st, .error ("this game needs two or more users. request: "
      ++ usersParam))
  else
    let session := Session.init freshId users
    (SessionStore.create st t session, .ok session.session_id)

/-- The `/janken/<sid>/choice/<user>/<hand>` handler (app.py lines
293-299).  `with session_store.lock(session_id)` performs a
non-blocking acquisition (`blocking_timeout=0`): when the lock is
already held, `Lock.__enter__` raises the redis `LockError` at once and
the body never runs.  Inside the critical section the source evaluates
`restore`, then `Hand.from_str`, then `choose`, then `store`; the
`with` statement releases the lock on every exit path, so the returned
state carries the original lock set. -/
def choice_hand (st : StoreState) (t : Nat) (sid user hand : String) :
    StoreState × Except AppError String :=
  if sid ∈ st.locks then
    (st, .error .LockError)
  else
    match SessionStore.restore st t sid with
    | .error e => (st, .error e)
    | .ok session =>
      match Hand.from_str hand with
      | .error e => (st, .error e)
      | .ok h =>
        match session.choose user h with
        | .error e => (st, .error e)
        | .ok session2 =>
          (SessionStore.store st t session2, .ok session2.session_id)

/-- The sessions reachable from `Session.init freshId users` by any
sequence of successful `choose` calls (`result` and `judge` are
read-only and return no session). -/
inductive ReachableFrom (freshId : String) (users : List String) :
    Session → Prop where
  | init : ReachableFrom freshId users (Session.init freshId users)
  | chooseStep {s s' : Session} (user : String) (hand : Hand) :
      ReachableFrom freshId users s →
      s.choose user hand = .ok s' →
      ReachableFrom freshId users s'

/-- A participant who already holds a key of the choices dict is turned
away with `AlreadyChosenError`, whatever the rest of the session looks
like. -/
lemma choose_of_mem_keys (s : Session) (user : String) (hand : Hand)
    (h : user ∈ s.choices.map Prod.fst) :
    s.choose user hand = .error .AlreadyChosen := by
  simp [Session.choose, h]

/-- A successful `choose` can only come from the first branch: the user
is a participant without a prior key, and the new state appends exactly
one entry. -/
lemma choose_ok_elim {s s' : Session} {user : String} {hand : Hand}
    (h : s.choose user hand = .ok s') :
    user ∈ s.users ∧ user ∉ s.choices.map Prod.fst ∧
      s' = { s with choices := s.choices ++ [(user, Choice.mk user hand)] } := by
  simp only [Session.choose] at h
  split_ifs at h with h1
  exact ⟨h1.1, h1.2, by injection h with h; exact h.symm⟩

/-- C2: `choose` adds exactly one Choice on success (participant in the
list, no prior key), fails with AlreadyChosen on a prior key, fails
with NotInSession for a non-participant, and a second call for the same
participant yields AlreadyChosen with exactly one stored entry. -/
theorem choose_spec (s : Session) (user : String) (hand : Hand)
    (hinv : ∀ k ∈ s.choices.map Prod.fst, k ∈ s.users) :
    (user ∈ s.users → user ∉ s.choices.map Prod.fst →
      s.choose user hand =
        .ok { s with choices := s.choices ++ [(user, Choice.mk user hand)] }) ∧
    (user ∈ s.choices.map Prod.fst →
      s.choose user hand = .error .AlreadyChosen) ∧
    (user ∉ s.users → s.choose user hand = .error .NotInSession) ∧
    (∀ s' hand2, s.choose user hand = .ok s' →
      s'.choose user hand2 = .error .AlreadyChosen ∧
      (s'.choices.map Prod.fst).count user = 1) := by
  refine ⟨fun h1 h2 => by simp [Session.choose, h1, h2],
    fun h => choose_of_mem_keys s user hand h,
    fun h => ?_, fun s' hand2 hok => ?_⟩
  · have hk : user ∉ s.choices.map Prod.fst := fun hm => h (hinv user hm)
    simp [Session.choose, h, hk]
  · obtain ⟨hu, hk, hs'⟩ := choose_ok_elim hok
    have hmem : user ∈ s'.choices.map Prod.fst := by
      subst hs'; simp
    refine ⟨choose_of_mem_keys s' user hand2 hmem, ?_⟩
    subst hs'
    simp [List.count_append, List.count_eq_zero.mpr hk]

theorem choose_spec_witness :
    ((⟨"s1", ["A", "B"], []⟩ : Session).choose "A" Hand.Rock =
      .ok ⟨"s1", ["A", "B"], [("A", Choice.mk "A" Hand.Rock)]⟩) ∧
    ((⟨"s1", ["A", "B"], [("A", Choice.mk "A" Hand.Rock)]⟩ : Session).choose
        "A" Hand.Paper = .error .AlreadyChosen ∧
      ((⟨"s1", ["A", "B"], [("A", Choice.mk "A" Hand.Rock)]⟩ : Session).choices.map
          Prod.fst).count "A" = 1) :=
  ⟨(choose_spec ⟨"s1", ["A", "B"], []⟩ "A" Hand.Rock (by decide)).1
      (by decide) (by decide),
    (choose_spec ⟨"s1", ["A", "B"], []⟩ "A" Hand.Rock (by decide)).2.2.2
      ⟨"s1", ["A", "B"], [("A", Choice.mk "A" Hand.Rock)]⟩ Hand.Paper (by decide)⟩

/-- C1: over a complete mapping of participants to hands, `judge`
returns Draw with no winners when all three groups are non-empty,
RockWin with exactly the Rock-throwers when only Rock and Scissors are
non-empty, ScissorsWin with exactly the Scissors-throwers when only
Scissors and Paper are non-empty, PaperWin with exactly the
Paper-throwers when only Paper and Rock are non-empty, and Draw with no
winners when at most one group is non-empty. -/
theorem judge_spec (s : Session)
    (_hc : s.users.toFinset = (s.choices.map Prod.fst).toFinset) :
    (s.rocks ≠ [] → s.scissors ≠ [] → s.papers ≠ [] →
      s.judge = ⟨ResultStatus.Draw, none⟩) ∧
    (s.rocks ≠ [] → s.scissors ≠ [] → s.papers = [] →
      s.judge = ⟨ResultStatus.RockWin, some s.rocks⟩) ∧
    (s.scissors ≠ [] → s.papers ≠ [] → s.rocks = [] →
      s.judge = ⟨ResultStatus.ScissorsWin, some s.scissors⟩) ∧
    (s.papers ≠ [] → s.rocks ≠ [] → s.scissors = [] →
      s.judge = ⟨ResultStatus.PaperWin, some s.papers⟩) ∧
    ((s.scissors = [] ∧ s.papers = []) ∨ (s.rocks = [] ∧ s.papers = []) ∨
        (s.rocks = [] ∧ s.scissors = []) →
      s.judge = ⟨ResultStatus.Draw, none⟩) := by
  refine ⟨?_, ?_, ?_, ?_, ?_⟩ <;> intro h1 <;>
    first
    | (intro h2 h3; simp only [Session.judge]; split_ifs <;> tauto)
    | (simp only [Session.judge]; split_ifs <;> tauto)

theorem judge_spec_witness :
    ((⟨"s1", ["A", "B"], [("A", Choice.mk "A" Hand.Rock),
        ("B", Choice.mk "B" Hand.Scissors)]⟩ : Session).users.toFinset =
      ((⟨"s1", ["A", "B"], [("A", Choice.mk "A" Hand.Rock),
        ("B", Choice.mk "B" Hand.Scissors)]⟩ : Session).choices.map
          Prod.fst).toFinset) ∧
    (⟨"s1", ["A", "B"], [("A", Choice.mk "A" Hand.Rock),
        ("B", Choice.mk "B" Hand.Scissors)]⟩ : Session).judge =
      ⟨ResultStatus.RockWin, some ["A"]⟩ :=
  ⟨by decide,
    (judge_spec ⟨"s1", ["A", "B"], [("A", Choice.mk "A" Hand.Rock),
        ("B", Choice.mk "B" Hand.Scissors)]⟩ (by decide)).2.1
      (by decide) (by decide) (by decide)⟩

/-- C3: `result` returns the judgment over the current choices exactly
when the chooser set equals the participant set, and otherwise fails
with SessionNotClosed — in particular whenever only 0..n-1 of n
distinct participants have chosen.  The operation is a pure read: it
returns a value and leaves the session untouched, so repeated calls on
an unchanged complete session agree. -/
theorem result_spec (s : Session) :
    (s.result = .ok s.judge ↔
      s.users.toFinset = (s.choices.map Prod.fst).toFinset) ∧
    (s.users.toFinset ≠ (s.choices.map Prod.fst).toFinset →
      s.result = .error .SessionNotClosed) ∧
    (s.users.Nodup → (s.choices.map Prod.fst).Nodup →
      (s.choices.map Prod.fst).length < s.users.length →
      s.result = .error .SessionNotClosed) := by
  refine ⟨?_, fun h => by simp [Session.result, h], fun hu hk hlt => ?_⟩
  · constructor
    · intro h
      by_contra hne
      simp [Session.result, hne] at h
    · intro h
      simp [Session.result, h]
  · have hne : s.users.toFinset ≠ (s.choices.map Prod.fst).toFinset := by
      intro he
      have h1 : (s.choices.map Prod.fst).toFinset.card =
          (s.choices.map Prod.fst).length := List.toFinset_card_of_nodup hk
      have h2 : s.users.toFinset.card = s.users.length :=
        List.toFinset_card_of_nodup hu
      rw [he, h1] at h2
      omega
    simp [Session.result, hne]

theorem result_spec_witness :
    ((⟨"s1", ["A", "B"], [("A", Choice.mk "A" Hand.Rock),
        ("B", Choice.mk "B" Hand.Scissors)]⟩ : Session).result =
      .ok (⟨"s1", ["A", "B"], [("A", Choice.mk "A" Hand.Rock),
        ("B", Choice.mk "B" Hand.Scissors)]⟩ : Session).judge) ∧
    (⟨"s1", ["A", "B"], [("A", Choice.mk "A" Hand.Rock)]⟩ : Session).result =
      .error .SessionNotClosed :=
  ⟨(result_spec ⟨"s1", ["A", "B"], [("A", Choice.mk "A" Hand.Rock),
        ("B", Choice.mk "B" Hand.Scissors)]⟩).1.mpr (by decide),
    (result_spec ⟨"s1", ["A", "B"],
        [("A", Choice.mk "A" Hand.Rock)]⟩).2.2 (by decide) (by decide)
      (by decide)⟩

/-- C9: along any run of successful `choose` calls from construction
(`result` and `judge` are read-only), every key of the choices dict is
a member of the participant list, no participant holds more than one
Choice, and the session id stays what construction minted. -/
theorem session_invariants (freshId : String) (users : List String)
    (s : Session) (h : ReachableFrom freshId users s) :
    (∀ k ∈ s.choices.map Prod.fst, k ∈ s.users) ∧
    (s.choices.map Prod.fst).Nodup ∧
    s.session_id = freshId := by
  induction h with
  | init => simp [Session.init]
  | chooseStep user hand _ hok ih =>
    obtain ⟨hsub, hnd, hid⟩ := ih
    obtain ⟨hu, hk, hs'⟩ := choose_ok_elim hok
    subst hs'
    refine ⟨?_, ?_, hid⟩
    · intro k hkmem
      simp only [List.map_append, List.mem_append] at hkmem
      rcases hkmem with hkmem | hkmem
      · exact hsub k hkmem
      · simp only [List.map_cons, List.map_nil, List.mem_singleton] at hkmem
        exact hkmem ▸ hu
    · simp only [List.map_append, List.map_cons, List.map_nil]
      rw [List.nodup_append]
      exact ⟨hnd, List.nodup_singleton user, by simpa using hk⟩

theorem session_invariants_witness :
    (∀ k ∈ (⟨"s1", ["A", "B"],
        [("A", Choice.mk "A" Hand.Rock)]⟩ : Session).choices.map Prod.fst,
      k ∈ (⟨"s1", ["A", "B"],
        [("A", Choice.mk "A" Hand.Rock)]⟩ : Session).users) ∧
    ((⟨"s1", ["A", "B"],
        [("A", Choice.mk "A" Hand.Rock)]⟩ : Session).choices.map
        Prod.fst).Nodup ∧
    (⟨"s1", ["A", "B"],
        [("A", Choice.mk "A" Hand.Rock)]⟩ : Session).session_id = "s1" :=
  session_invariants "s1" ["A", "B"] _
    (ReachableFrom.chooseStep "A" Hand.Rock ReachableFrom.init (by decide))

/-- C10: because `result` compares the participant SET with the chooser
SET, a session whose participant list repeats an identifier is closed
once each distinct identifier has chosen once: `result` succeeds even
though the choices dict holds fewer entries than the participant list
has positions, and the duplicated identifier can never contribute a
second choice (any further `choose` for a held key is AlreadyChosen). -/
theorem duplicate_users_closure (s : Session)
    (hdup : ¬ s.users.Nodup)
    (hkeys : (s.choices.map Prod.fst).Nodup)
    (hset : s.users.toFinset = (s.choices.map Prod.fst).toFinset) :
    s.result = .ok s.judge ∧
    s.choices.length < s.users.length ∧
    (∀ u hand, u ∈ s.choices.map Prod.fst →
      s.choose u hand = .error .AlreadyChosen) := by
  refine ⟨by simp [Session.result, hset], ?_,
    fun u hand hm => choose_of_mem_keys s u hand hm⟩
  have h1 : (s.choices.map Prod.fst).toFinset.card =
      (s.choices.map Prod.fst).length := List.toFinset_card_of_nodup hkeys
  have h2 : s.users.toFinset.card ≤ s.users.length := s.users.toFinset_card_le
  have h3 : s.users.toFinset.card ≠ s.users.length := by
    intro he
    apply hdup
    rw [List.card_toFinset] at he
    exact List.dedup_eq_self.mp (s.users.dedup_sublist.eq_of_length he)
  have h4 : s.choices.length = (s.choices.map Prod.fst).length :=
    (List.length_map _ _).symm
  rw [hset, h1] at h2 h3
  omega

theorem duplicate_users_closure_witness :
    (¬ (["A", "A", "B"] : List String).Nodup) ∧
    (⟨"s1", ["A", "A", "B"], [("A", Choice.mk "A" Hand.Rock),
        ("B", Choice.mk "B" Hand.Scissors)]⟩ : Session).result =
      .ok (⟨"s1", ["A", "A", "B"], [("A", Choice.mk "A" Hand.Rock),
        ("B", Choice.mk "B" Hand.Scissors)]⟩ : Session).judge ∧
    (⟨"s1", ["A", "A", "B"], [("A", Choice.mk "A" Hand.Rock),
        ("B", Choice.mk "B" Hand.Scissors)]⟩ : Session).choices.length <
      (⟨"s1", ["A", "A", "B"], [("A", Choice.mk "A" Hand.Rock),
        ("B", Choice.mk "B" Hand.Scissors)]⟩ : Session).users.length ∧
    (⟨"s1", ["A", "A", "B"], [("A", Choice.mk "A" Hand.Rock),
        ("B", Choice.mk "B" Hand.Scissors)]⟩ : Session).choose "A" Hand.Paper =
      .error .AlreadyChosen :=
  have h := duplicate_users_closure
    ⟨"s1", ["A", "A", "B"], [("A", Choice.mk "A" Hand.Rock),
      ("B", Choice.mk "B" Hand.Scissors)]⟩
    (by decide) (by decide) (by decide)
  ⟨by decide, h.1, h.2.1, h.2.2 "A" Hand.Paper (by decide)⟩

/-- C4: `create` is set-if-absent-with-expiry.  When a live record
already exists for the session's id the whole store state — in
particular the existing record's content — is unchanged (a silent
no-op, never an overwrite); when none exists, the session is written
under its id with the standard one-hour time-to-live. -/
theorem create_spec (st : StoreState) (t : Nat) (s : Session) :
    ((liveGet st t s.session_id).isSome → SessionStore.create st t s = st) ∧
    (liveGet st t s.session_id = none →
      lookupRecord (SessionStore.create st t s).records s.session_id =
        some ⟨s, t + session_lifetime⟩ ∧
      liveGet (SessionStore.create st t s) t s.session_id = some s) := by
  constructor
  · intro h
    simp [SessionStore.create, h]
  · intro h
    have hn : ¬ (liveGet st t s.session_id).isSome := by simp [h]
    have hrec : lookupRecord (SessionStore.create st t s).records
        s.session_id = some ⟨s, t + session_lifetime⟩ := by
      simp [SessionStore.create, hn, lookupRecord, setRecord, List.find?]
    refine ⟨hrec, ?_⟩
    simp only [liveGet, hrec]
    have : t < t + session_lifetime := by
      simp [session_lifetime]
    simp [this]

theorem create_spec_witness :
    liveGet (⟨[], []⟩ : StoreState) 0 "s1" = none ∧
    lookupRecord (SessionStore.create ⟨[], []⟩ 0
        (Session.init "s1" ["A", "B"])).records "s1" =
      some ⟨Session.init "s1" ["A", "B"], session_lifetime⟩ ∧
    (liveGet (SessionStore.create
        ⟨[("s1", ⟨Session.init "s1" ["A", "B"], 3600⟩)], []⟩ 0
        (Session.init "s1" ["C", "D"])) 0 "s1" = some (Session.init "s1" ["A", "B"])) :=
  ⟨rfl,
    ((create_spec ⟨[], []⟩ 0 (Session.init "s1" ["A", "B"])).2 rfl).1,
    by rw [(create_spec ⟨[("s1", ⟨Session.init "s1" ["A", "B"], 3600⟩)], []⟩
        0 (Session.init "s1" ["C", "D"])).1 (by decide)]; decide⟩

/-- C8: `restore` hands back the stored session when a live record
exists for the id, and fails with SessionNotFound when none does —
whether never created or already past its expiry; being a pure read it
leaves the store state untouched. -/
theorem restore_spec (st : StoreState) (t : Nat) (sid : String) :
    (∀ s, liveGet st t sid = some s →
      SessionStore.restore st t sid = .ok s) ∧
    (liveGet st t sid = none →
      SessionStore.restore st t sid = .error .SessionNotFound) ∧
    (∀ r, lookupRecord st.records sid = some r → r.expiry ≤ t →
      SessionStore.restore st t sid = .error .SessionNotFound) := by
  refine ⟨fun s h => by simp [SessionStore.restore, h],
    fun h => by simp [SessionStore.restore, h],
    fun r hr hexp => ?_⟩
  simp [SessionStore.restore, liveGet, hr, Nat.not_lt.mpr hexp]

theorem restore_spec_witness :
    SessionStore.restore
        ⟨[("s1", ⟨Session.init "s1" ["A", "B"], 3600⟩)], []⟩ 0 "s1" =
      .ok (Session.init "s1" ["A", "B"]) ∧
    SessionStore.restore (⟨[], []⟩ : StoreState) 0 "s1" =
      .error .SessionNotFound ∧
    SessionStore.restore
        ⟨[("s1", ⟨Session.init "s1" ["A", "B"], 3600⟩)], []⟩ 4000 "s1" =
      .error .SessionNotFound :=
  ⟨(restore_spec ⟨[("s1", ⟨Session.init "s1" ["A", "B"], 3600⟩)], []⟩
        0 "s1").1 (Session.init "s1" ["A", "B"]) (by decide),
    (restore_spec ⟨[], []⟩ 0 "s1").2.1 rfl,
    (restore_spec ⟨[("s1", ⟨Session.init "s1" ["A", "B"], 3600⟩)], []⟩
        4000 "s1").2.2 ⟨Session.init "s1" ["A", "B"], 3600⟩ (by decide)
      (by decide)⟩

/-- C6: parsing hand text depends only on the `lower().strip()`
canonical form, so inputs differing only in letter case or surrounding
whitespace parse to the identical Hand value; each of the three
canonical names yields its Hand, and any input whose canonical form is
none of them fails with the invalid-enum condition
(`UndefinedEnumError`). -/
theorem from_str_spec :
    (∀ s₁ s₂ : String, handCanon s₁ = handCanon s₂ →
      Hand.from_str s₁ = Hand.from_str s₂) ∧
    (∀ s : String, handCanon s = "rock" → Hand.from_str s = .ok .Rock) ∧
    (∀ s : String, handCanon s = "scissors" →
      Hand.from_str s = .ok .Scissors) ∧
    (∀ s : String, handCanon s = "paper" → Hand.from_str s = .ok .Paper) ∧
    (∀ s : String, handCanon s ≠ "rock" → handCanon s ≠ "scissors" →
      handCanon s ≠ "paper" →
      Hand.from_str s = .error .UndefinedEnum) := by
  refine ⟨fun s₁ s₂ h => by simp only [Hand.from_str, h],
    fun s h => by simp [Hand.from_str, h],
    fun s h => by simp [Hand.from_str, h],
    fun s h => by simp [Hand.from_str, h],
    fun s h1 h2 h3 => by simp [Hand.from_str, h1, h2, h3]⟩

theorem from_str_spec_witness :
    Hand.from_str " ROCK " = Hand.from_str "rock" ∧
    Hand.from_str " ROCK " = .ok .Rock ∧
    Hand.from_str "Scissors" = .ok .Scissors ∧
    Hand.from_str "\tpaper\n" = .ok .Paper ∧
    Hand.from_str "lizard" = .error .UndefinedEnum :=
  ⟨from_str_spec.1 " ROCK " "rock" (by decide),
    from_str_spec.2.1 " ROCK " (by decide),
    from_str_spec.2.2.1 "Scissors" (by decide),
    from_str_spec.2.2.2.1 "\tpaper\n" (by decide),
    from_str_spec.2.2.2.2 "lizard" (by decide) (by decide) (by decide)⟩

/-- C7: the start handler refuses fewer than 2 parsed users and then
leaves the store untouched (no session is created); with 2 or more it
constructs the session, `create`s it in the store, and answers with the
new session's id. -/
theorem start_spec (usersParam freshId : String) (t : Nat)
    (st : StoreState) :
    ((parse_users usersParam).length < 2 →
      (start usersParam freshId t st).1 = st ∧
      ∃ msg, (start usersParam freshId t st).2 = .error msg) ∧
    (2 ≤ (parse_users usersParam).length →
      start usersParam freshId t st =
        (SessionStore.create st t
            (Session.init freshId (parse_users usersParam)),
          .ok freshId)) := by
  constructor
  · intro h
    simp [start, h]
  · intro h
    simp [start, Nat.not_lt.mpr h, Session.init]

theorem start_spec_witness :
    ((start "A" "fresh" 0 ⟨[], []⟩).1 = (⟨[], []⟩ : StoreState) ∧
      ∃ msg, (start "A" "fresh" 0 ⟨[], []⟩).2 = .error msg) ∧
    start "A,B" "fresh" 0 ⟨[], []⟩ =
      (SessionStore.create ⟨[], []⟩ 0
          (Session.init "fresh" (parse_users "A,B")),
        .ok "fresh") :=
  ⟨(start_spec "A" "fresh" 0 ⟨[], []⟩).1 (by decide),
    (start_spec "A,B" "fresh" 0 ⟨[], []⟩).2 (by decide)⟩

/-- C5: when the per-session lock is already held, the choice handler
does NOT fail with the classified `CannotStartTransactionError` (the
application's LockContention error, which is defined and given a Flask
errorhandler but never raised anywhere): the redis `Lock.__enter__`
raises the library's `LockError`, for which no errorhandler is
registered, so the request dies with a generic unclassified 500.  The
same request with the lock free succeeds, showing the failure is
purely lock contention. -/
theorem lock_contention_unclassified :
    (choice_hand ⟨[("s1", ⟨Session.init "s1" ["A", "B"], 3600⟩)], ["s1"]⟩
        0 "s1" "A" "rock").2 = .error .LockError ∧
    AppError.LockError ≠ AppError.CannotStartTransaction ∧
    AppError.LockError.hasErrorHandler = false ∧
    AppError.CannotStartTransaction.hasErrorHandler = true ∧
    (choice_hand ⟨[("s1", ⟨Session.init "s1" ["A", "B"], 3600⟩)], []⟩
        0 "s1" "A" "rock").2 = .ok "s1" := by
  refine ⟨by decide, by decide, by decide, by decide, by decide⟩
